import Mathlib

/-!
Verification development for the `monerodata.xmrserialize` streaming codec
(file `monerodata/xmrserialize.py`).

The embedding follows the Python source closely:

* Byte streams are `List Nat` (each entry one byte of the `MemoryReaderWriter`
  buffer).  Reading follows the semantics of `MemoryReaderWriter.areadinto`
  (lines 254-259 of the source): it copies `min(len(buf), len(stream))` bytes
  into the caller's buffer, returns the number of bytes copied, and never
  signals end of stream.  Bytes of the caller's buffer beyond the copied
  region keep their previous content (zero for a freshly allocated
  `bytearray`).
* Writers are modelled by returning the list of emitted bytes.
* Fallible Python code (raised exceptions) is modelled with `Option`:
  `none` stands for an escaped exception.
* The `uvarint` codec lives in `monerodata.protobuf`, which is not part of
  the sources; `dump_uvarint` / `load_uvarint` below are modelled from the
  specification (7-bit groups, little-endian, continuation bit 0x80; the
  loader fails with end-of-stream when the bytes run out, per the
  transport contract in the specification).
-/

/-- Embedding of `load_uint` (source lines 31-39): reads `width` single bytes
through the shared one-byte scratch buffer and accumulates them little-endian
(`result += buffer[0] << shift`).  When the stream is exhausted mid-read the
Python code keeps the stale content of the shared scratch buffer; here the
scratch buffer is taken with its module-initialisation content `0`, which
agrees with the source on every stream holding at least `width` bytes. -/
def load_uint : Nat → List Nat → Nat × List Nat
  | 0, s => (0, s)
  | _ + 1, [] => (0, [])
  | w + 1, b :: s =>
    let p := load_uint w s
    (b + 256 * p.1, p.2)

/-- Embedding of `dump_uint` (source lines 42-47): emits `width` bytes,
low-order byte first (`buffer[0] = n & 0xff; n >>= 8`). -/
def dump_uint : Nat → Nat → List Nat
  | _, 0 => []
  | n, w + 1 => n % 256 :: dump_uint (n / 256) w

/-- Modelled from the spec: `dump_uvarint` of `monerodata.protobuf` (module
not under the sources).  Emits groups of 7 low bits, low group first, with
bit 0x80 set on every group except the last (spec section 4.2). -/
def dump_uvarint (n : Nat) : List Nat :=
  if h : n < 128 then [n]
  else (n % 128 + 128) :: dump_uvarint (n / 128)
  termination_by n
  decreasing_by exact Nat.div_lt_self (by omega) (by omega)

/-- Modelled from the spec: `load_uvarint` of `monerodata.protobuf` (module
not under the sources).  Accumulates 7-bit groups until a byte below 0x80;
fails (`none`, i.e. end of stream) when the bytes run out (spec sections
4.2 and 4.1). -/
def load_uvarint : List Nat → Option (Nat × List Nat)
  | [] => none
  | b :: s =>
    if b < 128 then some (b, s)
    else
      match load_uvarint s with
      | some (v, r) => some (b % 128 + 128 * v, r)
      | none => none

/-- Embedding of `MemoryReaderWriter.areadinto` (source lines 254-259) over a
caller buffer `buf` and the reader's remaining stream: returns the buffer
after the copy, the number of bytes copied (`nread = min(len(buf),
len(stream))`, the method's return value), and the remaining stream.  Bytes
of `buf` past `nread` are left unchanged; no end-of-stream error is ever
raised. -/
def areadinto (buf : List Nat) (stream : List Nat) : List Nat × Nat × List Nat :=
  let nread := min buf.length stream.length
  (stream.take buf.length ++ buf.drop nread, nread, stream.drop buf.length)

/-- UTF-8 encoding of one code point, as produced by Python's
`bytes(elem, 'utf8')` for valid (non-surrogate) code points. -/
def utf8EncodeChar (c : Nat) : List Nat :=
  if c < 0x80 then [c]
  else if c < 0x800 then [0xC0 + c / 64, 0x80 + c % 64]
  else if c < 0x10000 then [0xE0 + c / 4096, 0x80 + c / 64 % 64, 0x80 + c % 64]
  else [0xF0 + c / 262144, 0x80 + c / 4096 % 64, 0x80 + c / 64 % 64, 0x80 + c % 64]

/-- UTF-8 encoding of a string (a string is modelled as its list of code
points, so Python's `len` of the string is the length of this list). -/
def utf8Encode (cs : List Nat) : List Nat :=
  (cs.map utf8EncodeChar).flatten

/-- One step of strict UTF-8 decoding: the first code point of the byte
list and the remaining bytes, or `none` for a stray continuation byte, an
overlong form, a surrogate, a code point above 0x10FFFF or a truncated
sequence - exactly the prefixes Python's strict decoder rejects. -/
def utf8DecodeChar : List Nat → Option (Nat × List Nat)
  | [] => none
  | b :: bs =>
    if b < 0x80 then some (b, bs)
    else if b < 0xC2 then none
    else if b < 0xE0 then
      match bs with
      | b1 :: bs1 =>
        if 0x80 ≤ b1 ∧ b1 < 0xC0 then
          some ((b - 0xC0) * 64 + (b1 - 0x80), bs1)
        else none
      | [] => none
    else if b < 0xF0 then
      match bs with
      | b1 :: b2 :: bs2 =>
        if ((if b = 0xE0 then 0xA0 else 0x80) ≤ b1 ∧
              b1 < (if b = 0xED then 0xA0 else 0xC0)) ∧
            (0x80 ≤ b2 ∧ b2 < 0xC0) then
          some ((b - 0xE0) * 4096 + (b1 - 0x80) * 64 + (b2 - 0x80), bs2)
        else none
      | _ => none
    else if b < 0xF5 then
      match bs with
      | b1 :: b2 :: b3 :: bs3 =>
        if ((if b = 0xF0 then 0x90 else 0x80) ≤ b1 ∧
              b1 < (if b = 0xF4 then 0x90 else 0xC0)) ∧
            (0x80 ≤ b2 ∧ b2 < 0xC0) ∧ (0x80 ≤ b3 ∧ b3 < 0xC0) then
          some ((b - 0xF0) * 262144 + (b1 - 0x80) * 4096 + (b2 - 0x80) * 64 +
            (b3 - 0x80), bs3)
        else none
      | _ => none
    else none

/-- The decoding loop behind `utf8Decode`.  Each decoded code point
consumes at least one byte, so a step budget equal to the byte count is
never exhausted; the budget only makes the recursion structural. -/
def utf8DecodeLoop : Nat → List Nat → Option (List Nat)
  | _, [] => some []
  | 0, _ :: _ => none
  | fuel + 1, b :: bs =>
    match utf8DecodeChar (b :: bs) with
    | none => none
    | some (c, rest) => (utf8DecodeLoop fuel rest).map (fun cs => c :: cs)

/-- Strict UTF-8 decoding of a whole byte list, as performed by Python's
`str(fvalue, 'utf8')`; `none` models the raised `UnicodeDecodeError`. -/
def utf8Decode (l : List Nat) : Option (List Nat) :=
  utf8DecodeLoop l.length l

/-!
Schema descriptors.  Each Python descriptor class becomes one constructor:
`UVarintType`, `IntType` (with its `WIDTH`; `SIGNED` does not influence the
wire form, source lines 371-382 and 692-697), `BlobType` (`FIX_SIZE`,
`SIZE`), `UnicodeType`, `VariantType` (its `FIELDS`: entries
`(fname, ftype, *params)` where the field type class also carries its
`VARIANT_CODE`), `ContainerType` (`FIX_SIZE`, `SIZE`, `ELEM_TYPE`) and
`MessageType` (its `FIELDS`: entries `(fname, ftype, *params)`).  Attribute
and field names are modelled as atoms (`Nat`); extra parameters are type
descriptors, matching their use in the source (`params[0]` overrides a
container's element type, `params[1:]` recurses).
-/

inductive Ty where
  | UVarintType : Ty
  | IntType (width : Nat) : Ty
  | BlobType (fixSize : Bool) (size : Nat) : Ty
  | UnicodeType : Ty
  | VariantType (fields : List (Nat × Ty × Nat × List Ty)) : Ty
  | ContainerType (fixSize : Bool) (size : Nat) (elemType : Ty) : Ty
  | MessageType (fields : List (Nat × Ty × List Ty)) : Ty

/-- A message schema: the `FIELDS` list of a `MessageType` subclass; each
entry is `(fname, ftype, params)`. -/
abbrev MsgFields := List (Nat × Ty × List Ty)

/-- A variant schema: the `FIELDS` list of a `VariantType` subclass; each
entry is `(fname, ftype, VARIANT_CODE of ftype, params)`. -/
abbrev VarFields := List (Nat × Ty × Nat × List Ty)

/-!
Runtime values.  A Python value handled by the codec is one of: an `int`, a
`bytearray`/`bytes`, a `str` (kept as its list of code points), a `BlobType`
wrapper instance (its `data` attribute, absent or a byte sequence), a
`VariantType` instance (its active alternative: `variant_elem`,
`variant_elem_type` - kept as the declared variant code together with the
schema descriptor of that class - and the value stored under the
alternative's name; `none` when `variant_elem` is `None`), a `list`, or a
`MessageType` instance (its class `FIELDS` plus its attribute dictionary).
The Python object additionally keeps attributes written by overwritten
`set_variant` calls; those never influence the codec and are not tracked.
-/

inductive Val where
  | int (n : Nat) : Val
  | bytes (bs : List Nat) : Val
  | str (cs : List Nat) : Val
  | blob (data : Option (List Nat)) : Val
  | variant (active : Option (Nat × Nat × Ty × Val)) : Val
  | list (elems : List Val) : Val
  | obj (fields : MsgFields) (attrs : List (Nat × Val)) : Val

/-- `getattr(o, name, None)` on the attribute dictionary of a message
object: first binding wins. -/
def getAttr : List (Nat × Val) → Nat → Option Val
  | [], _ => none
  | (k, v) :: rest, n => if k = n then some v else getAttr rest n

/-- `setattr(o, name, value)` on the attribute dictionary of a message
object: replaces the existing binding or appends a new one. -/
def setAttr : List (Nat × Val) → Nat → Val → List (Nat × Val)
  | [], n, v => [(n, v)]
  | (k, w) :: rest, n, v =>
    if k = n then (k, v) :: rest else (k, w) :: setAttr rest n v

/-- Python truthiness of the values above (`if container:` tests): `None`
handled by `pyTruthyOpt`; numbers are truthy unless zero, sequences unless
empty, plain objects always. -/
def pyTruthy : Val → Bool
  | .int n => n ≠ 0
  | .bytes bs => !bs.isEmpty
  | .str cs => !cs.isEmpty
  | .list l => !l.isEmpty
  | .blob _ => true
  | .variant _ => true
  | .obj _ _ => true

/-- Python truthiness including `None`. -/
def pyTruthyOpt : Option Val → Bool
  | none => false
  | some v => pyTruthy v

/-- Python `len` on the values above; `none` models the `TypeError` raised
for objects without `__len__` (blob wrappers, variants, messages, ints). -/
def pyLen : Val → Option Nat
  | .bytes bs => some bs.length
  | .str cs => some cs.length
  | .list l => some l.length
  | _ => none

/-- `elem.extend(fvalue)` on a byte-sequence or list target (`load_blob`,
source line 581); `none` models the `AttributeError` for values without
`extend`. -/
def extendElem : Val → List Nat → Option Val
  | .bytes bs, f => some (.bytes (bs ++ f))
  | .list l, f => some (.list (l ++ f.map .int))
  | _, _ => none

/-- Byte data accepted by `writer.awrite` in `dump_blob` (source line 561):
a byte sequence, or a list whose entries are ints (the `BlobType` docstring's
"list of values" representation). -/
def toByteData : Val → Option (List Nat)
  | .bytes bs => some bs
  | .list l => l.mapM (fun v => match v with | .int n => some n | _ => none)
  | _ => none

/-- `set_variant` (source lines 205-208): records the active alternative
name, the class of the stored value (kept as the declared variant code and
descriptor of that class) and the value.  On a non-variant object the call
is unreachable from the codec; the value is returned unchanged there. -/
def set_variant (e : Val) (fname fcode : Nat) (ftype : Ty) (fvalue : Val) : Val :=
  match e with
  | .variant _ => .variant (some (fname, fcode, ftype, fvalue))
  | other => other

/-!
Element references (source lines 267-310): the tagged handles
`(ElemRefObj, obj, name)` and `(ElemRefArr, container, index)` passed as the
`elem` argument of `load_field`.  Python mutates the referenced object in
place; here the updated object travels in the returned reference.
-/

inductive ERef where
  | plain (v : Option Val) : ERef
  | refObj (obj : Val) (name : Nat) : ERef
  | refArr (arr : List Val) (idx : Nat) : ERef

/-- `get_elem` (source lines 291-297): dereference, `getattr` with default
`None` for object references, indexing for array references.  Only message
objects are the target of `ElemRefObj` in the codec, so attribute lookup on
other values answers `None`. -/
def get_elem : ERef → Option Val
  | .plain v => v
  | .refObj (.obj _ attrs) name => getAttr attrs name
  | .refObj _ _ => none
  | .refArr a i => a.get? i

/-- `set_elem` (source lines 300-310): write through the reference.  The
Python function returns the new element and mutates the referenced slot;
the mutated owner is recovered from the returned reference. -/
def set_elem : ERef → Val → ERef
  | .plain w, _ => .plain w
  | .refObj (.obj f attrs) name, v => .refObj (.obj f (setAttr attrs name v)) name
  | .refObj o name, _ => .refObj o name
  | .refArr a i, v => .refArr (a.set i v) i

/-- Embedding of `load_blob` (source lines 564-583) for descriptors without
a `serialize_load` hook: resolve the byte count (declared `SIZE` for fixed
blobs, `uvarint` prefix otherwise), read into a fresh zero-filled buffer via
`areadinto`, then return the buffer, store it in the wrapper's `data`
attribute, or extend the supplied byte-sequence target. -/
def load_blob (fixSize : Bool) (size : Nat) (params : List Ty) (elem : Option Val)
    (s : List Nat) : Option (Val × List Nat) :=
  match (if fixSize then some (size, s) else load_uvarint s) with
  | none => none
  | some (ivalue, s1) =>
    let p := areadinto (List.replicate ivalue 0) s1
    let fvalue := p.1
    let s2 := p.2.2
    match elem with
    | none => some (.bytes fvalue, s2)
    | some (.blob _) => some (.blob (some fvalue), s2)
    | some e =>
      match extendElem e fvalue with
      | some e2 => some (e2, s2)
      | none => none

/-- Embedding of `dump_blob` (source lines 555-561) for values without a
`serialize_dump` hook: a `uvarint` length prefix (`len(elem)`; a `TypeError`
for wrapper blobs, which have no `__len__`) unless the descriptor is
fixed-size, then the bytes (`elem.data` for a wrapper - an `AttributeError`
when absent - or the value itself). -/
def dump_blob (fixSize : Bool) (params : List Ty) (elem : Option Val) :
    Option (List Nat) :=
  match elem with
  | none => none
  | some e =>
    match (if fixSize then some [] else (pyLen e).map dump_uvarint) with
    | none => none
    | some pre =>
      match (match e with | .blob d => d | other => toByteData other) with
      | none => none
      | some data => some (pre ++ data)

/-- The element loop of `load_container` (source lines 616-621),
parameterised - like the source's `field_archiver` - by the element loader.
`useRef` is the truthiness of the caller-supplied container: when true each
element is loaded through an `(ElemRefArr, res, i)` reference, otherwise
with no target and the result is appended. -/
def load_container_elems
    (loadElem : ERef → List Nat → Option (Val × ERef × List Nat))
    (useRef : Bool) : List Val → Nat → Nat → List Nat →
      Option (List Val × List Nat)
  | res, _, 0, s => some (res, s)
  | res, i, c + 1, s =>
    match loadElem (if useRef then .refArr res i else .plain none) s with
    | none => none
    | some (fv, r2, s2) =>
      let res2 :=
        if useRef then (match r2 with | .refArr a _ => a | _ => res)
        else res ++ [fv]
      load_container_elems loadElem useRef res2 (i + 1) c s2

/-- The body of `load_container` (source lines 600-622) past the element
type resolution, parameterised - like the source's `field_archiver`
argument - by the element loader: element count from the declared `SIZE` or
the `uvarint` prefix; `ValueError('Size mismatch')` when a truthy target's
length differs from the count; then the element loop (into the supplied
list through array references when the target is truthy, else appending to
a fresh list).  Container values are lists in the codec's data structures
(`ContainerType` docstring); a truthy non-list target fails. -/
def load_container_core
    (loadElem : ERef → List Nat → Option (Val × ERef × List Nat))
    (fixSize : Bool) (size : Nat) (container : Option Val) (s : List Nat) :
    Option (Val × List Nat) :=
  match (if fixSize then some (size, s) else load_uvarint s) with
  | none => none
  | some (c_len, s1) =>
    if pyTruthyOpt container then
      match container with
      | some cv =>
        match pyLen cv with
        | none => none
        | some len =>
          if c_len ≠ len then none
          else
            match cv with
            | .list elems =>
              match load_container_elems loadElem true elems 0 c_len s1 with
              | none => none
              | some (res, s2) => some (.list res, s2)
            | _ => none
      | none => none
    else
      match load_container_elems loadElem false [] 0 c_len s1 with
      | none => none
      | some (res, s2) => some (.list res, s2)

mutual

/-- Embedding of `load_field` (source lines 719-752): dispatch on the
descriptor kind, load the value, and write it through the element reference
with `set_elem`.  Returns the loaded value, the updated reference and the
remaining stream. -/
def load_field (ty : Ty) (params : List Ty) (elem : ERef) (s : List Nat) :
    Option (Val × ERef × List Nat) :=
  match ty with
  | .UVarintType =>
    match load_uvarint s with
    | none => none
    | some (n, r) => some (.int n, set_elem elem (.int n), r)
  | .IntType w =>
    let p := load_uint w s
    some (.int p.1, set_elem elem (.int p.1), p.2)
  | .BlobType fx sz =>
    match load_blob fx sz params (get_elem elem) s with
    | none => none
    | some (v, r) => some (v, set_elem elem v, r)
  | .UnicodeType =>
    match load_uvarint s with
    | none => none
    | some (n, r) =>
      let p := areadinto (List.replicate n 0) r
      match utf8Decode p.1 with
      | none => none
      | some cs => some (.str cs, set_elem elem (.str cs), p.2.2)
  | .VariantType fields =>
    match load_variant fields params (get_elem elem) s with
    | none => none
    | some (v, r) => some (v, set_elem elem v, r)
  | .ContainerType fx sz ety =>
    match load_container fx sz ety params (get_elem elem) s with
    | none => none
    | some (v, r) => some (v, set_elem elem v, r)
  | .MessageType fields =>
    match load_message fields (get_elem elem) s with
    | none => none
    | some (v, r) => some (v, set_elem elem v, r)

  termination_by 4 * sizeOf ty + 4 * sizeOf params
  decreasing_by all_goals (simp <;> omega)

/-- Embedding of `load_container` (source lines 600-622) for descriptors
without a `serialize_load` hook: element count from the declared `SIZE` or
the `uvarint` prefix; `ValueError('Size mismatch')` when a truthy target's
length differs from the count; element type from `params[0]` when params
are present, else the declared `ELEM_TYPE`; then the element loop. -/
def load_container (fixSize : Bool) (size : Nat) (elemType : Ty)
    (params : List Ty) (container : Option Val) (s : List Nat) :
    Option (Val × List Nat) :=
  let ety := match params with | [] => elemType | p :: _ => p
  load_container_core (fun e st => load_field ety params.tail e st)
    fixSize size container s
  termination_by 4 * sizeOf elemType + 4 * sizeOf params + 2
  decreasing_by all_goals (cases params <;> simp <;> omega)

/-- Embedding of `load_variant` (source lines 675-689) for descriptors
without a `serialize_load` hook: a fresh `VariantType()` value when no
target is supplied, the `uvarint` tag, then the scan over the declared
alternatives. -/
def load_variant (fields : VarFields) (params : List Ty) (elem : Option Val)
    (s : List Nat) : Option (Val × List Nat) :=
  let e := elem.getD (.variant none)
  match load_uvarint s with
  | none => none
  | some (tag, s1) => load_variant_scan fields tag e s1

  termination_by 4 * sizeOf fields + 3
  decreasing_by all_goals (simp <;> omega)

/-- The field scan of `load_variant` (source lines 682-688): every declared
alternative whose `VARIANT_CODE` equals the tag is decoded (there is no
early exit), each decode consuming its encoding from the stream, and each
match overwriting the active alternative via `set_variant`. -/
def load_variant_scan (fields : VarFields) (tag : Nat) (e : Val)
    (s : List Nat) : Option (Val × List Nat) :=
  match fields with
  | [] => some (e, s)
  | (fname, ftype, fcode, fparams) :: rest =>
    if fcode = tag then
      match load_field ftype fparams (.plain none) s with
      | none => none
      | some (fv, _, s2) =>
        load_variant_scan rest tag (set_variant e fname fcode ftype fv) s2
    else load_variant_scan rest tag e s

  termination_by 4 * sizeOf fields + 1
  decreasing_by all_goals (simp <;> omega)

/-- Embedding of `load_message` (source lines 655-663): a fresh
`msg_type()` instance when no target is supplied, then each declared field
in order. -/
def load_message (fields : MsgFields) (msg : Option Val) (s : List Nat) :
    Option (Val × List Nat) :=
  load_message_fields fields (msg.getD (.obj fields [])) s

  termination_by 4 * sizeOf fields + 3
  decreasing_by all_goals (simp <;> omega)

/-- The field loop of `load_message` (source lines 660-661). -/
def load_message_fields (fields : MsgFields) (m : Val) (s : List Nat) :
    Option (Val × List Nat) :=
  match fields with
  | [] => some (m, s)
  | (fname, ftype, fparams) :: rest =>
    match load_message_field m fname ftype fparams s with
    | none => none
    | some (m2, s2) => load_message_fields rest m2 s2

  termination_by 4 * sizeOf fields + 1
  decreasing_by all_goals (simp <;> omega)

/-- Embedding of `load_message_field` (source lines 635-641): load the
field through an `(ElemRefObj, msg, fname)` reference; the mutated message
is recovered from the returned reference. -/
def load_message_field (m : Val) (fname : Nat) (ftype : Ty)
    (fparams : List Ty) (s : List Nat) : Option (Val × List Nat) :=
  match load_field ftype fparams (.refObj m fname) s with
  | none => none
  | some (_, r2, s2) =>
    match r2 with
    | .refObj o _ => some (o, s2)
    | _ => some (m, s2)

  termination_by 4 * sizeOf ftype + 4 * sizeOf fparams + 2
  decreasing_by all_goals (simp <;> omega)

end

mutual

/-- Embedding of `dump_field` (source lines 692-716): dispatch on the
descriptor kind and emit the value's encoding.  `none` models the raised
exception for a value of the wrong shape (including `None` where a value is
required). -/
def dump_field (elem : Option Val) (ty : Ty) (params : List Ty) :
    Option (List Nat) :=
  match ty with
  | .UVarintType =>
    match elem with
    | some (.int n) => some (dump_uvarint n)
    | _ => none
  | .IntType w =>
    match elem with
    | some (.int n) => some (dump_uint n w)
    | _ => none
  | .BlobType fx _ => dump_blob fx params elem
  | .UnicodeType =>
    match elem with
    | some (.str cs) => some (dump_uvarint cs.length ++ utf8Encode cs)
    | _ => none
  | .VariantType _ => dump_variant elem params
  | .ContainerType fx _ ety => dump_container elem fx ety params
  | .MessageType _ => dump_message elem
  termination_by 4 * sizeOf elem + 2
  decreasing_by all_goals (simp <;> omega)

/-- Embedding of `dump_container` (source lines 586-597) for values without
a `serialize_dump` hook: a `uvarint` count prefix unless the descriptor is
fixed-size, then each element under the element type (`params[0]` when
params are present, else the declared `ELEM_TYPE`).  Container values are
lists in the codec's data structures (`ContainerType` docstring); anything
else fails. -/
def dump_container (container : Option Val) (fixSize : Bool) (elemType : Ty)
    (params : List Ty) : Option (List Nat) :=
  match container with
  | some (.list l) =>
    let pre := if fixSize then [] else dump_uvarint l.length
    let ety := match params with | [] => elemType | p :: _ => p
    match dump_container_elems l ety params.tail with
    | none => none
    | some out => some (pre ++ out)
  | _ => none
  termination_by 4 * sizeOf container
  decreasing_by all_goals (simp <;> omega)

/-- The element loop of `dump_container` (source lines 596-597). -/
def dump_container_elems (l : List Val) (ety : Ty) (ps : List Ty) :
    Option (List Nat) :=
  match l with
  | [] => some []
  | e :: rest =>
    match dump_field (some e) ety ps with
    | none => none
    | some out =>
      match dump_container_elems rest ety ps with
      | none => none
      | some outs => some (out ++ outs)
  termination_by 4 * sizeOf l + 1
  decreasing_by all_goals (cases rest <;> simp <;> omega)

/-- Embedding of `dump_variant` (source lines 666-672) for values without a
`serialize_dump` hook: the `uvarint` `VARIANT_CODE` of the active
alternative's class, then the alternative's value under that class
(`elem.variant_elem_type`); an `AttributeError` (`none`) when no
alternative is active. -/
def dump_variant (elem : Option Val) (params : List Ty) : Option (List Nat) :=
  match elem with
  | some (.variant (some (_, c, t, v))) =>
    match dump_field (some v) t [] with
    | none => none
    | some out => some (dump_uvarint c ++ out)
  | _ => none
  termination_by 4 * sizeOf elem
  decreasing_by all_goals (simp <;> omega)

/-- Embedding of `dump_message` (source lines 644-652) for values without a
`serialize_dump` hook: each field of the value's own class `FIELDS`, in
declared order. -/
def dump_message (msg : Option Val) : Option (List Nat) :=
  match msg with
  | some (.obj fields attrs) => dump_message_fields fields attrs
  | _ => none
  termination_by 4 * sizeOf msg
  decreasing_by all_goals (simp <;> omega)

/-- The field loop of `dump_message` (source lines 651-652). -/
def dump_message_fields (fields : MsgFields) (attrs : List (Nat × Val)) :
    Option (List Nat) :=
  match fields with
  | [] => some []
  | (fname, ftype, fparams) :: rest =>
    match dump_message_field attrs fname ftype fparams with
    | none => none
    | some out =>
      match dump_message_fields rest attrs with
      | none => none
      | some outs => some (out ++ outs)
  termination_by 4 * sizeOf fields + 4 * sizeOf attrs
  decreasing_by all_goals (simp <;> omega)

/-- Embedding of `dump_message_field` (source lines 625-632): look the
field's value up on the message object (`getattr(msg, fname, None)`) and
emit it under the field's type and params. -/
def dump_message_field (attrs : List (Nat × Val)) (fname : Nat) (ftype : Ty)
    (fparams : List Ty) : Option (List Nat) :=
  dump_field (getAttr attrs fname) ftype fparams
  termination_by 4 * sizeOf attrs + 4
  decreasing_by
    all_goals
      have h : sizeOf (getAttr attrs fname) ≤ sizeOf attrs := by
        induction attrs with
        | nil => simp [getAttr]
        | cons kv rest ih =>
          obtain ⟨k, v⟩ := kv
          by_cases hk : k = fname <;> simp [getAttr, hk] <;> omega
      omega

end

/-- The declared variant codes of a variant schema (the `VARIANT_CODE`
attributes scanned by `load_variant`). -/
def varCodes : VarFields → List Nat
  | [] => []
  | (_, _, fcode, _) :: rest => fcode :: varCodes rest

/-- The declared field names of a message schema. -/
def msgFieldNames : MsgFields → List Nat
  | [] => []
  | (fname, _, _) :: rest => fname :: msgFieldNames rest

/-!
Theorems.  Shared lemmas first, then one theorem per claim (with its
witness or counterexample where applicable).
-/

theorem load_dump_uvarint (n : Nat) (rest : List Nat) :
    load_uvarint (dump_uvarint n ++ rest) = some (n, rest) := by
  induction n using Nat.strong_induction_on with
  | _ n ih =>
    by_cases h : n < 128
    · rw [dump_uvarint]
      simp [h, load_uvarint]
    · rw [dump_uvarint]
      simp only [h]
      have h1 : ¬(n % 128 + 128 < 128) := by omega
      have h2 : n / 128 < n := Nat.div_lt_self (by omega) (by omega)
      simp [load_uvarint, h1, ih (n / 128) h2]
      omega

theorem dump_uint_length (n w : Nat) : (dump_uint n w).length = w := by
  induction w generalizing n with
  | zero => rfl
  | succ w ih => simp [dump_uint, ih]

theorem dump_uint_eq_map (w n : Nat) :
    dump_uint n w = (List.range w).map (fun i => n / 256 ^ i % 256) := by
  induction w generalizing n with
  | zero => rfl
  | succ w ih =>
    rw [dump_uint, List.range_succ_eq_map, List.map_cons, List.map_map, ih]
    refine congrArg₂ _ (by simp) (List.map_congr_left fun i _ => ?_)
    have h : n / 256 / 256 ^ i = n / 256 ^ (i + 1) := by
      rw [Nat.div_div_eq_div_mul, pow_succ, Nat.mul_comm (256 ^ i) 256]
    simp [h]

theorem load_dump_uint (w n : Nat) (rest : List Nat) :
    load_uint w (dump_uint n w ++ rest) = (n % 2 ^ (8 * w), rest) := by
  induction w generalizing n with
  | zero => simp [dump_uint, load_uint, Nat.mod_one]
  | succ w ih =>
    have hpow : (2 : Nat) ^ (8 * (w + 1)) = 256 * 2 ^ (8 * w) := by
      rw [Nat.mul_add, pow_add]; ring
    rw [dump_uint, List.cons_append, load_uint, ih (n / 256), hpow]
    have h1 : n % (256 * 2 ^ (8 * w)) % 256 = n % 256 :=
      Nat.mod_mod_of_dvd n ⟨2 ^ (8 * w), rfl⟩
    have h2 : n % (256 * 2 ^ (8 * w)) / 256 = n / 256 % 2 ^ (8 * w) :=
      Nat.mod_mul_right_div_self n 256 (2 ^ (8 * w))
    have h3 := Nat.div_add_mod (n % (256 * 2 ^ (8 * w))) 256
    rw [h1, h2] at h3
    simp
    omega

theorem dump_uint_mod (w n : Nat) :
    dump_uint (n % 2 ^ (8 * w)) w = dump_uint n w := by
  induction w generalizing n with
  | zero => rfl
  | succ w ih =>
    have hpow : (2 : Nat) ^ (8 * (w + 1)) = 256 * 2 ^ (8 * w) := by
      rw [Nat.mul_add, pow_add]; ring
    have h1 : n % (256 * 2 ^ (8 * w)) % 256 = n % 256 :=
      Nat.mod_mod_of_dvd n ⟨2 ^ (8 * w), rfl⟩
    have h2 : n % (256 * 2 ^ (8 * w)) / 256 = n / 256 % 2 ^ (8 * w) :=
      Nat.mod_mul_right_div_self n 256 (2 ^ (8 * w))
    rw [hpow, dump_uint, dump_uint, h1, h2, ih (n / 256)]

/-- Claim C7: for every width `w` in `{1,2,4,8}` and every integer
`n < 2^(8*w)`, `dump_uint` writes exactly `w` bytes, in little-endian order
(byte `i` is `n / 256^i % 256`, so the low-order byte comes first), and
`load_uint` on those `w` bytes returns `n` with the rest of the stream
untouched. -/
theorem c7_fixed_uint_roundtrip (w n : Nat)
    (hw : w = 1 ∨ w = 2 ∨ w = 4 ∨ w = 8) (hn : n < 2 ^ (8 * w)) :
    (dump_uint n w).length = w ∧
      dump_uint n w = (List.range w).map (fun i => n / 256 ^ i % 256) ∧
      load_uint w (dump_uint n w) = (n, []) := by
  refine ⟨dump_uint_length n w, dump_uint_eq_map w n, ?_⟩
  have h := load_dump_uint w n []
  rw [List.append_nil] at h
  rw [h, Nat.mod_eq_of_lt hn]

/-- Witness for C7 at `w = 4`, `n = 0x12345678`. -/
theorem c7_fixed_uint_roundtrip_witness :
    (dump_uint 0x12345678 4).length = 4 ∧
      dump_uint 0x12345678 4 =
        (List.range 4).map (fun i => 0x12345678 / 256 ^ i % 256) ∧
      load_uint 4 (dump_uint 0x12345678 4) = (0x12345678, []) :=
  c7_fixed_uint_roundtrip 4 0x12345678 (by decide) (by decide)

/-- Claim C9: for every width `w` in `{1,2,4,8}` and every integer `n`,
including `n ≥ 2^(8*w)`, `dump_uint` totally succeeds, writing exactly `w`
bytes that represent `n mod 2^(8*w)` in little-endian order (the same bytes
as dumping `n mod 2^(8*w)`), and `load_uint` on those bytes returns
`n mod 2^(8*w)`: out-of-range values are silently truncated, never
rejected. -/
theorem c9_uint_truncates (w n : Nat) (hw : w = 1 ∨ w = 2 ∨ w = 4 ∨ w = 8) :
    (dump_uint n w).length = w ∧
      dump_uint n w = dump_uint (n % 2 ^ (8 * w)) w ∧
      load_uint w (dump_uint n w) = (n % 2 ^ (8 * w), []) := by
  refine ⟨dump_uint_length n w, (dump_uint_mod w n).symm, ?_⟩
  have h := load_dump_uint w n []
  rwa [List.append_nil] at h

/-- Witness for C9 at `w = 1`, `n = 300 = 0x12C`: one byte `0x2C` is
written and read back as `44`. -/
theorem c9_uint_truncates_witness :
    (dump_uint 300 1).length = 1 ∧
      dump_uint 300 1 = dump_uint (300 % 2 ^ (8 * 1)) 1 ∧
      load_uint 1 (dump_uint 300 1) = (300 % 2 ^ (8 * 1), []) :=
  c9_uint_truncates 1 300 (by decide)

/-- Claim C2 (code_bug evidence): the transport read does not fail on a
short read.  Decoding a fixed 32-byte blob from a stream holding only the
10 bytes `0x00..0x09`: `MemoryReaderWriter.areadinto` copies the 10
available bytes, returns `10` and raises nothing, and `load_blob` returns a
32-byte value - the 10 stream bytes followed by the 22 zero bytes of the
fresh buffer - instead of the end-of-stream failure required by the
`AsyncReader` contract in the module docstring and by the specification. -/
theorem c2_short_read_returns_value :
    (areadinto (List.replicate 32 0) [0, 1, 2, 3, 4, 5, 6, 7, 8, 9]).2.1 = 10 ∧
      load_blob true 32 [] none [0, 1, 2, 3, 4, 5, 6, 7, 8, 9] =
        some (.bytes ([0, 1, 2, 3, 4, 5, 6, 7, 8, 9] ++ List.replicate 22 0),
          []) := by
  constructor
  · rfl
  · rfl

/-- Claim C10: when the supplied blob target is a plain byte sequence (not
`None` and not a wrapper object), `load_blob` appends the decoded bytes to
the target's existing contents and returns the extended target: the result
holds the prior bytes followed by the decoded bytes. -/
theorem c10_blob_extends_target (fixSize : Bool) (size ivalue : Nat)
    (ps : List Ty) (prior s s1 : List Nat)
    (h : (if fixSize then some (size, s) else load_uvarint s) =
      some (ivalue, s1)) :
    load_blob fixSize size ps (some (.bytes prior)) s =
      some (.bytes (prior ++ (areadinto (List.replicate ivalue 0) s1).1),
        (areadinto (List.replicate ivalue 0) s1).2.2) := by
  rw [load_blob, h]
  rfl

/-- Witness for C10: a variable-size blob decode with target `[5]` and
stream `[2, 7, 8, 9]` (length prefix 2): the target becomes `[5, 7, 8]`
with `[9]` left in the stream. -/
theorem c10_blob_extends_target_witness :
    load_blob false 0 [] (some (.bytes [5])) [2, 7, 8, 9] =
      some (.bytes [5, 7, 8], [9]) := by
  have h : load_uvarint [2, 7, 8, 9] = some (2, [7, 8, 9]) := rfl
  have := c10_blob_extends_target false 0 2 [] [5] [2, 7, 8, 9] [7, 8, 9]
    (by simpa using h)
  simpa using this

theorem load_variant_scan_no_match (fields : VarFields) (tag : Nat) (e : Val)
    (s : List Nat) (h : tag ∉ varCodes fields) :
    load_variant_scan fields tag e s = some (e, s) := by
  induction fields with
  | nil => rw [load_variant_scan]
  | cons f rest ih =>
    obtain ⟨fname, ftype, fcode, fparams⟩ := f
    rw [varCodes] at h
    simp only [List.mem_cons, not_or] at h
    have hne : ¬(fcode = tag) := fun hc => h.1 hc.symm
    rw [load_variant_scan, if_neg hne]
    exact ih h.2

/-- Claim C3 (corrected): decoding a variant whose leading uvarint tag
equals no declared variant code does not fail; `load_variant` consumes
only the tag and returns the variant value with no active alternative
(`variant_elem` still `None`).  The claimed `DecodeError` is never
raised. -/
theorem c3_unknown_tag_no_active (fields : VarFields) (ps : List Ty)
    (s r : List Nat) (tag : Nat)
    (h1 : load_uvarint s = some (tag, r)) (h2 : tag ∉ varCodes fields) :
    load_variant fields ps none s = some (.variant none, r) := by
  rw [load_variant]
  simp only [Option.getD_none, h1]
  exact load_variant_scan_no_match fields tag (.variant none) r h2

/-- Witness for C3: a variant with a single alternative of code `5`;
the stream `[9, 3]` carries tag `9`, and decoding returns the variant with
no active alternative and the byte `3` unread. -/
theorem c3_unknown_tag_no_active_witness :
    load_variant [(1, Ty.IntType 1, 5, [])] [] none [9, 3] =
      some (.variant none, [3]) := by
  have h1 : load_uvarint [9, 3] = some (9, [3]) := rfl
  have h2 : (9 : Nat) ∉ varCodes [(1, Ty.IntType 1, 5, [])] := by
    simp [varCodes]
  exact c3_unknown_tag_no_active [(1, Ty.IntType 1, 5, [])] [] [9, 3] [3] 9 h1 h2

/-- Counterexample to claim C3 as stated: on the variant schema with the
single alternative `(name 1, IntType 1, code 5)` and the stream `[9, 3]`
(unknown tag `9`), decoding succeeds - no `DecodeError` - and returns a
variant value with no active alternative. -/
theorem c3_unknown_tag_counterexample :
    load_variant [(1, Ty.IntType 1, 5, [])] [] none [9, 3] =
        some (.variant none, [3]) ∧
      load_variant [(1, Ty.IntType 1, 5, [])] [] none [9, 3] ≠ none := by
  have h : load_variant [(1, Ty.IntType 1, 5, [])] [] none [9, 3] =
      some (.variant none, [3]) := by
    have hu : load_uvarint [9, 3] = some (9, [3]) := rfl
    rw [load_variant]
    simp [hu, load_variant_scan]
  exact ⟨h, by rw [h]; simp⟩

theorem load_variant_scan_append (f1 f2 : VarFields) (tag : Nat) (e : Val)
    (s : List Nat) :
    load_variant_scan (f1 ++ f2) tag e s =
      (load_variant_scan f1 tag e s).bind
        (fun p => load_variant_scan f2 tag p.1 p.2) := by
  induction f1 generalizing e s with
  | nil => simp [load_variant_scan]
  | cons f rest ih =>
    obtain ⟨fn, ft, fc, fp⟩ := f
    rw [List.cons_append, load_variant_scan, load_variant_scan]
    by_cases hc : fc = tag
    · rw [if_pos hc, if_pos hc]
      cases hf : load_field ft fp (.plain none) s with
      | none => simp [hf]
      | some r =>
        obtain ⟨fv, er, s2⟩ := r
        simp [hf, ih]
    · rw [if_neg hc, if_neg hc]
      exact ih e s

theorem load_variant_scan_variant_shape (fields : VarFields) (tag : Nat)
    (a : Option (Nat × Nat × Ty × Val)) (s : List Nat) (e' : Val)
    (s' : List Nat)
    (h : load_variant_scan fields tag (.variant a) s = some (e', s')) :
    ∃ a', e' = .variant a' := by
  induction fields generalizing a s with
  | nil =>
    rw [load_variant_scan] at h
    simp only [Option.some.injEq, Prod.mk.injEq] at h
    exact ⟨a, h.1.symm⟩
  | cons f rest ih =>
    obtain ⟨fn, ft, fc, fp⟩ := f
    rw [load_variant_scan] at h
    by_cases hc : fc = tag
    · rw [if_pos hc] at h
      cases hf : load_field ft fp (.plain none) s with
      | none => rw [hf] at h; simp at h
      | some r =>
        obtain ⟨fv, er, s2⟩ := r
        rw [hf] at h
        simp only [set_variant] at h
        exact ih (some (fn, fc, ft, fv)) s2 h
    · rw [if_neg hc] at h
      exact ih a s h

/-- Claim C5 (corrected): for every variant type in which two declared
alternatives share the same variant code - the schema is any
`f1 ++ (n2, t2, c, p2) :: f2` where an earlier alternative with code `c`
sits in `f1` and `(n2, t2, c, p2)` is the last declared alternative with
code `c` (`f2` declares no code `c`) - decoding a stream with tag `c`
decodes every matching alternative in declaration order, each consuming
its encoding from the stream (the scan of `f1` takes the stream from `s0`
to `s1`, the last match from `s1` to `s2`, and the trailing alternatives
consume nothing), and the *last* declared matching alternative becomes the
active alternative of the result: there is no early exit in the scan. -/
theorem c5_duplicate_code_last_wins (f1 f2 : VarFields) (n1 n2 c : Nat)
    (t1 t2 : Ty) (p1 p2 ps : List Ty) (s s0 s1 s2 : List Nat) (e1 v2 : Val)
    (e2 : ERef)
    (hdup : (n1, t1, c, p1) ∈ f1)
    (hlast : c ∉ varCodes f2)
    (h0 : load_uvarint s = some (c, s0))
    (h1 : load_variant_scan f1 c (.variant none) s0 = some (e1, s1))
    (h2 : load_field t2 p2 (.plain none) s1 = some (v2, e2, s2)) :
    load_variant (f1 ++ (n2, t2, c, p2) :: f2) ps none s =
      some (.variant (some (n2, c, t2, v2)), s2) := by
  obtain ⟨a1, rfl⟩ := load_variant_scan_variant_shape f1 c none s0 e1 s1 h1
  rw [load_variant]
  simp only [Option.getD_none, h0]
  rw [load_variant_scan_append, h1, Option.some_bind]
  have hskip := load_variant_scan_no_match f2 c
    (.variant (some (n2, c, t2, v2))) s2 hlast
  simp [load_variant_scan, h2, set_variant, hskip]

/-- Witness for C5 on a four-alternative schema: a non-matching
alternative (name `9`, code `7`), a first match (name `4`, code `3`), the
last match (name `5`, code `3`) and a trailing non-matching alternative
(name `8`, code `6`).  On the stream `[3, 10, 20]` the decode skips the
code-7 alternative, consumes `10` for alternative `4`, consumes `20` for
alternative `5`, skips the code-6 alternative, and leaves alternative `5`
with value `20` active. -/
theorem c5_duplicate_code_last_wins_witness :
    load_variant [(9, Ty.IntType 1, 7, []), (4, Ty.IntType 1, 3, []),
        (5, Ty.IntType 1, 3, []), (8, Ty.UVarintType, 6, [])] []
        none [3, 10, 20] =
      some (.variant (some (5, 3, Ty.IntType 1, .int 20)), []) := by
  have h0 : load_uvarint [3, 10, 20] = some (3, [10, 20]) := rfl
  have h1 : load_variant_scan [(9, Ty.IntType 1, 7, []),
      (4, Ty.IntType 1, 3, [])] 3 (.variant none) [10, 20] =
      some (.variant (some (4, 3, Ty.IntType 1, .int 10)), [20]) := by
    simp [load_variant_scan, load_field, load_uint, set_elem, set_variant]
  have h2 : load_field (Ty.IntType 1) [] (.plain none) [20] =
      some (.int 20, .plain none, []) := by
    simp [load_field, load_uint, set_elem]
  have hdup : (4, Ty.IntType 1, 3, ([] : List Ty)) ∈
      [(9, Ty.IntType 1, 7, ([] : List Ty)), (4, Ty.IntType 1, 3, [])] := by
    simp
  have hlast : (3 : Nat) ∉ varCodes [(8, Ty.UVarintType, 6, [])] := by
    simp [varCodes]
  have := c5_duplicate_code_last_wins
    [(9, Ty.IntType 1, 7, []), (4, Ty.IntType 1, 3, [])]
    [(8, Ty.UVarintType, 6, [])] 4 5 3 (Ty.IntType 1) (Ty.IntType 1)
    [] [] [] [3, 10, 20] [10, 20] [20] []
    (.variant (some (4, 3, Ty.IntType 1, .int 10))) (.int 20) (.plain none)
    hdup hlast h0 h1 h2
  simpa using this

/-- Counterexample to claim C5 as stated: alternatives named `1` and `2`
share code `1` (type `IntType 1`); on the stream `[1, 5, 7]` the decode
consumes *both* value bytes and activates the *second* alternative with
value `7` - not, as claimed, only the first alternative's byte with the
first alternative active and `[7]` left unread. -/
theorem c5_duplicate_code_counterexample :
    load_variant [(1, Ty.IntType 1, 1, []), (2, Ty.IntType 1, 1, [])] []
        none [1, 5, 7] =
      some (.variant (some (2, 1, Ty.IntType 1, .int 7)), []) ∧
    load_variant [(1, Ty.IntType 1, 1, []), (2, Ty.IntType 1, 1, [])] []
        none [1, 5, 7] ≠
      some (.variant (some (1, 1, Ty.IntType 1, .int 5)), [7]) := by
  have h : load_variant [(1, Ty.IntType 1, 1, []), (2, Ty.IntType 1, 1, [])]
      [] none [1, 5, 7] =
      some (.variant (some (2, 1, Ty.IntType 1, .int 7)), []) := by
    have h0 : load_uvarint [1, 5, 7] = some (1, [5, 7]) := rfl
    have h1 : load_field (Ty.IntType 1) [] (.plain none) [5, 7] =
        some (.int 5, .plain none, [7]) := by
      simp [load_field, load_uint, set_elem]
    have h2 : load_field (Ty.IntType 1) [] (.plain none) [7] =
        some (.int 7, .plain none, []) := by
      simp [load_field, load_uint, set_elem]
    rw [load_variant]
    simp only [Option.getD_none, h0]
    simp [load_variant_scan, h1, h2, set_variant]
  refine ⟨h, ?_⟩
  rw [h]
  simp

/-- Claim C6 (corrected): when the caller supplies a *non-empty* target
container and the decoded element count differs from the target's length,
the variable-size container decode fails (`ValueError('Size mismatch')`,
the DecodeError of the spec).  A supplied *empty* target does not trigger
the check (see the counterexample): the guard is `if container and ...`,
and an empty list is falsy. -/
theorem c6_size_mismatch_nonempty_target (size n : Nat) (ety : Ty)
    (ps : List Ty) (l : List Val) (s r : List Nat)
    (hl : l ≠ []) (h : load_uvarint s = some (n, r)) (hn : n ≠ l.length) :
    load_container false size ety ps (some (.list l)) s = none := by
  have ht : pyTruthyOpt (some (.list l)) = true := by
    simp [pyTruthyOpt, pyTruthy, hl]
  rw [load_container.eq_def]
  simp [load_container_core, h, ht, pyLen, hn]

/-- Witness for C6: target `[int 9, int 9]` (length 2) against a stream
whose uvarint count is `3`: the decode fails. -/
theorem c6_size_mismatch_nonempty_target_witness :
    load_container false 0 (Ty.IntType 1) [] (some (.list [.int 9, .int 9]))
      [3, 1, 2, 3] = none := by
  have h : load_uvarint [3, 1, 2, 3] = some (3, [1, 2, 3]) := rfl
  exact c6_size_mismatch_nonempty_target 0 3 (Ty.IntType 1) []
    [.int 9, .int 9] [3, 1, 2, 3] [1, 2, 3] (by simp) h (by simp)

/-- Counterexample to claim C6 as stated: the caller supplies the *empty*
target `[]` and the stream `[1, 42]` decodes a count of `1 ≠ 0`; instead of
the claimed DecodeError the decode succeeds, building a fresh one-element
list (the supplied target is neither checked, filled, nor returned). -/
theorem c6_size_mismatch_counterexample :
    load_container false 0 (Ty.IntType 1) [] (some (.list [])) [1, 42] =
        some (.list [.int 42], []) ∧
      load_container false 0 (Ty.IntType 1) [] (some (.list [])) [1, 42] ≠
        none := by
  have h : load_container false 0 (Ty.IntType 1) [] (some (.list []))
      [1, 42] = some (.list [.int 42], []) := by
    have hu : load_uvarint [1, 42] = some (1, [42]) := rfl
    have ht : pyTruthyOpt (some (.list [])) = false := by
      simp [pyTruthyOpt, pyTruthy]
    rw [load_container.eq_def]
    simp [load_container_core, hu, ht, load_container_elems, load_field,
      load_uint, set_elem]
  exact ⟨h, by rw [h]; simp⟩

theorem dump_message_fields_congr (fields : MsgFields)
    (a1 a2 : List (Nat × Val))
    (h : ∀ nm ∈ msgFieldNames fields, getAttr a1 nm = getAttr a2 nm) :
    dump_message_fields fields a1 = dump_message_fields fields a2 := by
  induction fields with
  | nil => simp [dump_message_fields]
  | cons f rest ih =>
    obtain ⟨fname, ftype, fparams⟩ := f
    have hhead : getAttr a1 fname = getAttr a2 fname :=
      h fname (by simp [msgFieldNames])
    have hrest : ∀ nm ∈ msgFieldNames rest, getAttr a1 nm = getAttr a2 nm :=
      fun nm hnm => h nm (by simp [msgFieldNames]; exact Or.inr hnm)
    simp only [dump_message_fields, dump_message_field, hhead, ih hrest]

/-- Claim C8: two message values of the same type `T` that agree on every
attribute named by `T`'s declared fields encode to identical byte streams;
attributes not named by any field never influence the output
(`dump_message` reads only `getattr(msg, fname)` for declared `fname`s). -/
theorem c8_extra_attrs_ignored (fields : MsgFields) (a1 a2 : List (Nat × Val))
    (h : ∀ nm ∈ msgFieldNames fields, getAttr a1 nm = getAttr a2 nm) :
    dump_message (some (.obj fields a1)) = dump_message (some (.obj fields a2)) := by
  simp only [dump_message]
  exact dump_message_fields_congr fields a1 a2 h

/-- Witness for C8: a one-field message (field `1`, uvarint); the value
carrying the extra attribute `2` encodes to the same bytes as the value
without it. -/
theorem c8_extra_attrs_ignored_witness :
    dump_message (some (.obj [(1, Ty.UVarintType, [])]
        [(1, .int 5), (2, .int 99)])) =
      dump_message (some (.obj [(1, Ty.UVarintType, [])] [(1, .int 5)])) :=
  c8_extra_attrs_ignored [(1, Ty.UVarintType, [])]
    [(1, .int 5), (2, .int 99)] [(1, .int 5)]
    (by intro nm hnm
        simp [msgFieldNames] at hnm
        subst hnm
        rfl)

/-- Claim C1 (code_bug evidence): the round-trip fails for a well-formed
message with a non-ASCII text field.  For the one-field message type
`[(7, UnicodeType)]` and the value whose field `7` is the string
`"é"` (code point 0xE9, one character, two UTF-8 bytes), encoding
writes the *character count* `1` as the length prefix followed by the two
UTF-8 bytes `0xC3 0xA9`; decoding reads the prefix `1`, consumes only the
single byte `0xC3`, and fails on invalid UTF-8 instead of returning the
value: `decode(encode(v), T) ≠ v`. -/
theorem c1_unicode_roundtrip_fails :
    dump_message (some (.obj [(7, Ty.UnicodeType, [])] [(7, .str [0xE9])])) =
        some [1, 0xC3, 0xA9] ∧
      load_message [(7, Ty.UnicodeType, [])] none [1, 0xC3, 0xA9] = none := by
  constructor
  · simp [dump_message, dump_message_fields, dump_message_field, dump_field,
      getAttr, dump_uvarint, utf8Encode, utf8EncodeChar]
  · have h195 : utf8DecodeLoop 1 [195] = none := rfl
    simp [load_message, load_message_fields, load_message_field, load_field,
      load_uvarint, areadinto, set_elem, utf8Decode, h195]

/-- Claim C4 (code_bug evidence): in-place decode of a well-formed value
fails for a non-ASCII text field.  For the one-field message type
`[(3, UnicodeType)]`, the value whose field `3` is the string
`"π"` (code point 0x3C0) and a freshly constructed target `t`,
encoding writes prefix `1` (character count) and the two UTF-8 bytes
`0xCF 0x80`; decoding into `t` reads one byte `0xCF`, fails on invalid
UTF-8, and never makes `t` equal to the value or returns it. -/
theorem c4_inplace_roundtrip_fails :
    dump_message (some (.obj [(3, Ty.UnicodeType, [])] [(3, .str [0x3C0])])) =
        some [1, 0xCF, 0x80] ∧
      load_message [(3, Ty.UnicodeType, [])]
        (some (.obj [(3, Ty.UnicodeType, [])] [])) [1, 0xCF, 0x80] = none := by
  constructor
  · simp [dump_message, dump_message_fields, dump_message_field, dump_field,
      getAttr, dump_uvarint, utf8Encode, utf8EncodeChar]
  · have h207 : utf8DecodeLoop 1 [207] = none := rfl
    simp [load_message, load_message_fields, load_message_field, load_field,
      load_uvarint, areadinto, set_elem, utf8Decode, h207]
